import Mathlib

/-!
Verification of the interactive build dashboard
(`pkg/build/interactive_interface.go`).

The Go source is embedded shallowly:

* `StringRingBuffer` stands for `util.StringRingBuffer` (package
  `github.com/layer-devops/sanic/pkg/util`, whose source is not part of this
  repository snapshot); its operations are modelled from the spec.
* `InteractiveInterfaceJob` / `InteractiveInterface` mirror the two Go structs
  (the mutex, the tcell screen handle, its style and the cancel-listener list
  are replaced by the fields the verified behaviour depends on; the flag
  `screenFinalized` records whether `screen.Fini()` has been called).
* Go maps are embedded as association lists; the list order stands for the
  (unspecified, randomized) iteration order of a Go map, so a permutation of
  the entry list denotes the same map observed in a different run.
* Functions that can `panic` return `Except String _`.
-/

set_option autoImplicit false

namespace Sanic

/-- Modelled from the spec: `util.StringRingBuffer` (the `pkg/util` package is
not under the repository snapshot). Fixed-capacity, insertion-ordered buffer of
recent lines: `Push` appends, evicting the oldest line when full; `Peek k`
returns the last `min(k, size)` lines in original arrival order. `items` holds
the lines oldest first. -/
structure StringRingBuffer where
  capacity : Nat
  items : List String
deriving DecidableEq

/-- Modelled from the spec: `util.CreateStringRingBuffer(capacity)` creates an
empty buffer of the given capacity. -/
def CreateStringRingBuffer (capacity : Nat) : StringRingBuffer :=
  { capacity := capacity, items := [] }

/-- Modelled from the spec: `push(line)` appends, evicting the oldest line if
full. -/
def StringRingBuffer.Push (b : StringRingBuffer) (line : String) : StringRingBuffer :=
  { b with items := (if b.items.length = b.capacity then b.items.drop 1 else b.items) ++ [line] }

/-- Modelled from the spec: `peek(k)` returns up to the last `min(k, size)`
lines in original arrival order, without mutating the buffer. -/
def StringRingBuffer.Peek (b : StringRingBuffer) (k : Nat) : List String :=
  b.items.drop (b.items.length - k)

/-- Struct `interactiveInterfaceJob` (interactive_interface.go lines 13-20). -/
structure InteractiveInterfaceJob where
  lastLogLines : StringRingBuffer
  linesDisplayed : Nat
  status : String
  pushing : Bool
  image : String
  service : String
deriving DecidableEq

/-- Struct `interactiveInterface` (lines 22-30).  `jobs` is the Go map embedded as an
association list (list order = map iteration order); `screenFinalized` records
whether `screen.Fini()` has run; the mutex, screen handle, style and
cancel-listener list carry no state the verified claims depend on. -/
structure InteractiveInterface where
  jobs : List (String × InteractiveInterfaceJob)
  cancelled : Bool
  running : Bool
  screenFinalized : Bool
deriving DecidableEq

/-- The dashboard state right after `NewInteractiveInterface` (lines 33-83):
no jobs, not cancelled, running, screen initialized. -/
def emptyInterface : InteractiveInterface :=
  { jobs := [], cancelled := false, running := true, screenFinalized := false }

/-- Go map read `iface.jobs[service]`: the entry for the key, if present. -/
def lookupJob : List (String × InteractiveInterfaceJob) → String → Option InteractiveInterfaceJob
  | [], _ => none
  | p :: rest, key => if p.1 = key then some p.2 else lookupJob rest key

/-- Go map write `iface.jobs[service] = job`: replaces the entry if the key is
present, otherwise adds it. -/
def insertJob : List (String × InteractiveInterfaceJob) → String → InteractiveInterfaceJob →
    List (String × InteractiveInterfaceJob)
  | [], key, job => [(key, job)]
  | p :: rest, key, job => if p.1 = key then (key, job) :: rest else p :: insertJob rest key job

/-- Go in-place mutation of the struct behind `iface.jobs[key]`: rewrites the
entry (entries) carrying that key with `f`. -/
def updateJob (jobs : List (String × InteractiveInterfaceJob)) (key : String)
    (f : InteractiveInterfaceJob → InteractiveInterfaceJob) :
    List (String × InteractiveInterfaceJob) :=
  jobs.map (fun p => if p.1 = key then (p.1, f p.2) else p)

/-- Go `strings.TrimSpace`: removes leading and trailing whitespace. -/
def trimSpace (s : String) : String :=
  String.mk (((s.data.dropWhile Char.isWhitespace).reverse.dropWhile Char.isWhitespace).reverse)

/-- Go `strings.Join(elems, sep)`. -/
def joinStrings (sep : String) : List String → String
  | [] => ""
  | [x] => x
  | x :: xs => x ++ sep ++ joinStrings sep xs

/-- Method `StartJob` (lines 228-237): the map entry for `service` is replaced by a
fresh job; unset Go fields take their zero values (`status = ""`,
`pushing = false`). -/
def StartJob (iface : InteractiveInterface) (service : String) (image : String) :
    InteractiveInterface :=
  { iface with
    jobs := insertJob iface.jobs service
      { lastLogLines := CreateStringRingBuffer 20
        linesDisplayed := 0
        status := ""
        pushing := false
        image := image
        service := service } }

/-- Method `ProcessLog` (lines 268-281): panics (modelled as `Except.error`) when the
key is unknown; otherwise trims the line and pushes it when non-empty. -/
def ProcessLog (iface : InteractiveInterface) (service : String) (logLine : String) :
    Except String InteractiveInterface :=
  match lookupJob iface.jobs service with
  | none => Except.error ("Could not find service: " ++ service)
  | some _ =>
    let trimmed := trimSpace logLine
    if trimmed = "" then Except.ok iface
    else Except.ok { iface with
      jobs := updateJob iface.jobs service
        (fun job => { job with lastLogLines := job.lastLogLines.Push trimmed }) }

/-- The guarded status write shared by `FailJob` (lines 245-247) and
`SucceedJob` (lines 254-256): `if job, ok := iface.jobs[service]; ok
\x7b job.status = ... \x7d`. -/
def setJobStatus (iface : InteractiveInterface) (service : String) (newStatus : String) :
    InteractiveInterface :=
  match lookupJob iface.jobs service with
  | some _ => { iface with
      jobs := updateJob iface.jobs service (fun job => { job with status := newStatus }) }
  | none => iface

/-- Method `FailJob` (lines 239-248): first routes "Error! <message>" through
`ProcessLog` (which panics on an unknown key), then sets the status to
"failed" when the key is present. -/
def FailJob (iface : InteractiveInterface) (service : String) (err : String) :
    Except String InteractiveInterface :=
  match ProcessLog iface service ("Error! " ++ err) with
  | Except.error e => Except.error e
  | Except.ok iface2 => Except.ok (setJobStatus iface2 service "failed")

/-- Method `SucceedJob` (lines 250-257). -/
def SucceedJob (iface : InteractiveInterface) (service : String) : InteractiveInterface :=
  setJobStatus iface service "succeeded"

/-- Method `SetPushing` (lines 259-266). -/
def SetPushing (iface : InteractiveInterface) (service : String) : InteractiveInterface :=
  match lookupJob iface.jobs service with
  | some _ => { iface with
      jobs := updateJob iface.jobs service (fun job => { job with pushing := true }) }
  | none => iface

/-- The `failedJobs` list built by the loop in `Close` (lines 210-216): the
keys of the entries whose status is not "succeeded", in map iteration order.
(`serviceLogDirs` is also built there but never used.) -/
def failedJobNames (jobs : List (String × InteractiveInterfaceJob)) : List String :=
  (jobs.filter (fun p => !(p.2.status == "succeeded"))).map (fun p => p.1)

/-- The `serviceImages` list built by the same loop (line 212). -/
def serviceImages (jobs : List (String × InteractiveInterfaceJob)) : List String :=
  jobs.map (fun p => p.2.image)

/-- Method `Close` (lines 201-226): stops the redraw loop, finalizes the screen, and
returns the summary line printed to stdout (`none` when nothing is printed). -/
def Close (iface : InteractiveInterface) : InteractiveInterface × Option String :=
  let iface2 := { iface with running := false, screenFinalized := true }
  let failedJobs := failedJobNames iface2.jobs
  let output :=
    if !iface2.cancelled then
      if failedJobs.length > 0 then
        some ("Failed to build the following jobs: " ++ joinStrings ", " failedJobs ++
          "\nSee the logs folder for details.\n")
      else
        some ("Successfully built: " ++ joinStrings " " (serviceImages iface2.jobs) ++ "\n")
    else none
  (iface2, output)

/-- The classification loop of `redrawScreen` (lines 99-112): one pass over the
jobs, bucketing by status into `(succeededJobs, failedJobs, currJobs)` while
keeping the traversal order inside each bucket. -/
def classifyJobs : List InteractiveInterfaceJob →
    List InteractiveInterfaceJob × List InteractiveInterfaceJob × List InteractiveInterfaceJob
  | [] => ([], [], [])
  | job :: rest =>
    let parts := classifyJobs rest
    if job.status = "succeeded" then (job :: parts.1, parts.2.1, parts.2.2)
    else if job.status = "failed" then (parts.1, job :: parts.2.1, parts.2.2)
    else (parts.1, parts.2.1, job :: parts.2.2)

/-- Lexicographic order on character lists.  Go compares strings with `<`
byte-lexicographically; on UTF-8 encoded text that order coincides with the
code-point lexicographic comparison implemented here. -/
def charListLt : List Char → List Char → Bool
  | [], [] => false
  | [], _ :: _ => true
  | _ :: _, [] => false
  | a :: as, b :: bs => if a < b then true else if b < a then false else charListLt as bs

/-- Go string comparison `a < b`. -/
def goStringLt (a b : String) : Bool :=
  charListLt a.data b.data

/-- One insertion step of `sortJobs` (lines 114-121): keeps the list ordered by
the comparator `jobs[i].service < jobs[j].service` used by `sort.Slice`. -/
def insertJobSorted (job : InteractiveInterfaceJob) :
    List InteractiveInterfaceJob → List InteractiveInterfaceJob
  | [] => [job]
  | x :: xs =>
    if goStringLt job.service x.service then job :: x :: xs else x :: insertJobSorted job xs

/-- The `sortJobs` helper of `redrawScreen` (lines 114-121): sorts a bucket by
the `service` field (the job key). -/
def sortJobs (jobs : List InteractiveInterfaceJob) : List InteractiveInterfaceJob :=
  jobs.foldr insertJobSorted []

/-- Local `linesPerJob` (lines 139-142): `(height-1) / n`, floored at 2. -/
def linesPerJobOf (height n : Nat) : Nat :=
  let base := (height - 1) / n
  if base < 2 then 2 else base

/-- Local `numRemainderLines` (line 143): `height - 1 - linesPerJob*n` over Go `int`
arithmetic (it can be negative when `linesPerJob` was floored at 2). -/
def numRemainderOf (height linesPerJob n : Nat) : Int :=
  (height : Int) - 1 - (linesPerJob : Int) * (n : Int)

/-- The header text written for a job row: `"[failed] " + image` in the failed
loop (line 150), `"[building]"` / `"[building/pushing]"` + `" " + image` in the
building loop (lines 168-172).  Every job of the failed bucket has status
"failed" and every job of the building bucket does not, so the status field
selects exactly the header its loop writes. -/
def jobHeader (job : InteractiveInterfaceJob) : String :=
  if job.status = "failed" then "[failed] " ++ job.image
  else (if job.pushing then "[building/pushing]" else "[building]") ++ " " ++ job.image

/-- The two render loops of `redrawScreen` (lines 146-161 and 164-183), which
are identical except for the header/style, fused over the concatenated render
order (the break condition `currRenderLine+1 >= height-2` depends only on
`currRenderLine`, so breaking out of the first loop makes the second break
immediately too, exactly as this single loop does).  Returns the rows written
(`(y, text)` pairs handed to `displayAndTruncateString`), the list of
`logLinesToDisplay` budgets handed to `Peek` (one per rendered job), and the
final `currRenderLine` / `numRemainderLines`. -/
def renderLoop (height linesPerJob : Nat) :
    Nat → Int → List InteractiveInterfaceJob →
    List (Nat × String) × List Nat × Nat × Int
  | currRenderLine, numRemainderLines, [] => ([], [], currRenderLine, numRemainderLines)
  | currRenderLine, numRemainderLines, job :: rest =>
    if currRenderLine + 1 ≥ height - 2 then ([], [], currRenderLine, numRemainderLines)
    else
      let extra : Nat := if numRemainderLines > 0 then 1 else 0
      let logLinesToDisplay := linesPerJob - 1 + extra
      let logs := job.lastLogLines.Peek logLinesToDisplay
      let logRows := logs.enum.map (fun p => (currRenderLine + 1 + p.1, p.2))
      let res := renderLoop height linesPerJob
        (currRenderLine + 1 + logs.length) (numRemainderLines - extra) rest
      ((currRenderLine, jobHeader job) :: logRows ++ res.1,
        logLinesToDisplay :: res.2.1, res.2.2.1, res.2.2.2)

/-- The render order of `redrawScreen`: the failed bucket sorted by key, then
the building bucket sorted by key (lines 119-121, 146, 164). -/
def renderOrder (jobs : List InteractiveInterfaceJob) : List InteractiveInterfaceJob :=
  let parts := classifyJobs jobs
  sortJobs parts.2.1 ++ sortJobs parts.2.2

/-- The bottom status line (lines 187-196):
`"F/T failed, S/T completed, A/T building"` with the counts in the argument
order of the `fmt.Sprintf` call. -/
def summaryLine (numFailed numSucceeded numCurr numJobs : Nat) : String :=
  Nat.repr numFailed ++ "/" ++ Nat.repr numJobs ++ " failed, " ++
  Nat.repr numSucceeded ++ "/" ++ Nat.repr numJobs ++ " completed, " ++
  Nat.repr numCurr ++ "/" ++ Nat.repr numJobs ++ " building"

/-- The drawing body of `redrawScreen` (lines 94-198) as the list of
`(row, text)` writes handed to `displayAndTruncateString` (which then truncates
and pads each text to the terminal width): classify and sort the jobs, return
nothing when no job is failed or building (lines 133-136), otherwise the job
rows followed by the bottom summary row at `height-1`. -/
def redrawScreenRows (iface : InteractiveInterface) (height : Nat) : List (Nat × String) :=
  let jobs := iface.jobs.map (fun p => p.2)
  let parts := classifyJobs jobs
  let succeededJobs := parts.1
  let failedJobs := parts.2.1
  let currJobs := parts.2.2
  let numFailedAndBuilding := failedJobs.length + currJobs.length
  if numFailedAndBuilding = 0 then []
  else
    let linesPerJob := linesPerJobOf height numFailedAndBuilding
    let numRemainderLines := numRemainderOf height linesPerJob numFailedAndBuilding
    let res := renderLoop height linesPerJob 0 numRemainderLines
      (sortJobs failedJobs ++ sortJobs currJobs)
    let numJobs := currJobs.length + failedJobs.length + succeededJobs.length
    res.1 ++ [(height - 1, summaryLine failedJobs.length succeededJobs.length currJobs.length numJobs)]

/-- The `defer`/`recover` wrapper of `redrawScreen` (lines 85-92): the drawing
body either completes with a frame or fails (a panic out of the terminal
backend, abstracted as the `body` argument); on failure the deferred handler
calls `Close` (finalizing the screen) and then re-panics with the original
value. -/
def redrawScreen (iface : InteractiveInterface)
    (body : Except String (List (Nat × String))) :
    InteractiveInterface × Except String (List (Nat × String)) :=
  match body with
  | Except.ok rows => (iface, Except.ok rows)
  | Except.error r => ((Close iface).1, Except.error r)

/-- The status recorded for a key (observer of the registry). -/
def statusAt (iface : InteractiveInterface) (key : String) : Option String :=
  (lookupJob iface.jobs key).map (fun job => job.status)

/-- The pushing flag recorded for a key (observer of the registry). -/
def pushingAt (iface : InteractiveInterface) (key : String) : Option Bool :=
  (lookupJob iface.jobs key).map (fun job => job.pushing)

/-- Relation "a is rendered no later than b": the sort comparator never orders `b`
strictly before `a`. -/
def jobLe (a b : InteractiveInterfaceJob) : Prop :=
  goStringLt b.service a.service = false

/-! ### Concrete states used to evaluate the theorems -/

/-- A failed job named alpha. -/
def cxJobAlpha : InteractiveInterfaceJob :=
  { lastLogLines := CreateStringRingBuffer 20, linesDisplayed := 0, status := "failed",
    pushing := false, image := "img-alpha", service := "alpha" }

/-- A failed job named beta. -/
def cxJobBeta : InteractiveInterfaceJob :=
  { lastLogLines := CreateStringRingBuffer 20, linesDisplayed := 0, status := "failed",
    pushing := false, image := "img-beta", service := "beta" }

/-- Registry holding alpha before beta (one possible map iteration order). -/
def closeOrderStateA : InteractiveInterface :=
  { emptyInterface with jobs := [("alpha", cxJobAlpha), ("beta", cxJobBeta)] }

/-- The same registry observed in the other iteration order. -/
def closeOrderStateB : InteractiveInterface :=
  { emptyInterface with jobs := [("beta", cxJobBeta), ("alpha", cxJobAlpha)] }

/-- A dashboard with one started job whose pushing flag has been set. -/
def pushState0 : InteractiveInterface :=
  SetPushing (StartJob emptyInterface "api" "img:v1") "api"

/-- A freshly started job named api. -/
def logJob0 : InteractiveInterfaceJob :=
  { lastLogLines := CreateStringRingBuffer 20, linesDisplayed := 0, status := "",
    pushing := false, image := "img", service := "api" }

/-- A dashboard with the single started job `logJob0`. -/
def logState0 : InteractiveInterface :=
  { emptyInterface with jobs := [("api", logJob0)] }

/-- A failed job with five log lines, for exercising the layout. -/
def wJobFailed : InteractiveInterfaceJob :=
  { lastLogLines := { capacity := 20, items := ["f1", "f2", "f3", "f4", "f5"] },
    linesDisplayed := 0, status := "failed", pushing := false, image := "img-f", service := "fff" }

/-- A building job with two log lines, for exercising the layout. -/
def wJobBuilding : InteractiveInterfaceJob :=
  { lastLogLines := { capacity := 20, items := ["b1", "b2"] },
    linesDisplayed := 0, status := "", pushing := true, image := "img-b", service := "bbb" }

/-- A succeeded job, never rendered individually. -/
def wJobSucceeded : InteractiveInterfaceJob :=
  { lastLogLines := CreateStringRingBuffer 20, linesDisplayed := 0, status := "succeeded",
    pushing := false, image := "img-s", service := "sss" }

/-- The job list used to evaluate the layout theorem. -/
def wJobs : List InteractiveInterfaceJob := [wJobBuilding, wJobFailed]

/-- Dashboard with one failed, one succeeded and one building job. -/
def w8State : InteractiveInterface :=
  { emptyInterface with
    jobs := [("fff", wJobFailed), ("sss", wJobSucceeded), ("bbb", wJobBuilding)] }

/-- Dashboard where every job has succeeded. -/
def w9State : InteractiveInterface :=
  { emptyInterface with jobs := [("sss", wJobSucceeded)] }

/-- A job that already succeeded, used to exercise status overwriting. -/
def c10Job : InteractiveInterfaceJob :=
  { lastLogLines := CreateStringRingBuffer 20, linesDisplayed := 0, status := "succeeded",
    pushing := false, image := "img-x", service := "xxx" }

/-- Dashboard holding `c10Job`. -/
def c10State : InteractiveInterface :=
  { emptyInterface with jobs := [("xxx", c10Job)] }

/-! ### Order facts about the Go string comparison -/

lemma charListLt_asymm : ∀ (as bs : List Char),
    charListLt as bs = true → charListLt bs as = false
  | [], [] => by simp [charListLt]
  | [], _ :: _ => by simp [charListLt]
  | _ :: _, [] => by simp [charListLt]
  | a :: as, b :: bs => by
    simp only [charListLt]
    by_cases hab : a < b
    · have hba : ¬ b < a := lt_asymm hab
      simp [hab, hba]
    · by_cases hba : b < a
      · simp [hab, hba]
      · simp only [hab, hba, if_false, if_neg]
        exact charListLt_asymm as bs

lemma charListLt_trans : ∀ (as bs cs : List Char),
    charListLt as bs = true → charListLt bs cs = true → charListLt as cs = true
  | [], [], _ => by simp [charListLt]
  | [], _ :: _, [] => by simp [charListLt]
  | [], _ :: _, _ :: _ => by simp [charListLt]
  | _ :: _, [], _ => by simp [charListLt]
  | _ :: _, _ :: _, [] => by simp [charListLt]
  | a :: as, b :: bs, c :: cs => by
    intro h1 h2
    simp only [charListLt] at h1 h2 ⊢
    by_cases hab : a < b
    · by_cases hbc : b < c
      · simp [lt_trans hab hbc]
      · by_cases hcb : c < b
        · simp [hbc, hcb] at h2
        · have hbceq : b = c := le_antisymm (not_lt.mp hcb) (not_lt.mp hbc)
          subst hbceq
          simp [hab]
    · by_cases hba : b < a
      · simp [hab, hba] at h1
      · have habeq : a = b := le_antisymm (not_lt.mp hba) (not_lt.mp hab)
        subst habeq
        simp only [lt_self_iff_false, if_false] at h1
        by_cases hac : a < c
        · simp [hac]
        · by_cases hca : c < a
          · simp [hac, hca] at h2
          · have haceq : a = c := le_antisymm (not_lt.mp hca) (not_lt.mp hac)
            subst haceq
            simp only [lt_self_iff_false, if_false] at h2 ⊢
            exact charListLt_trans as bs cs h1 h2

lemma goStringLt_asymm {a b : String} (h : goStringLt a b = true) : goStringLt b a = false :=
  charListLt_asymm a.data b.data h

lemma goStringLt_trans {a b c : String} (h1 : goStringLt a b = true)
    (h2 : goStringLt b c = true) : goStringLt a c = true :=
  charListLt_trans a.data b.data c.data h1 h2

/-! ### The insertion sort used at render time -/

lemma mem_insertJobSorted (j : InteractiveInterfaceJob) :
    ∀ (l : List InteractiveInterfaceJob) (y : InteractiveInterfaceJob),
      y ∈ insertJobSorted j l → y = j ∨ y ∈ l
  | [], y => by simp [insertJobSorted]
  | x :: xs, y => by
    simp only [insertJobSorted]
    split
    · intro hy
      rcases List.mem_cons.mp hy with hy | hy
      · exact Or.inl hy
      · exact Or.inr hy
    · intro hy
      rcases List.mem_cons.mp hy with hy | hy
      · exact Or.inr (List.mem_cons.mpr (Or.inl hy))
      · rcases mem_insertJobSorted j xs y hy with hy2 | hy2
        · exact Or.inl hy2
        · exact Or.inr (List.mem_cons.mpr (Or.inr hy2))

lemma pairwise_insertJobSorted (j : InteractiveInterfaceJob) :
    ∀ (l : List InteractiveInterfaceJob), l.Pairwise jobLe →
      (insertJobSorted j l).Pairwise jobLe
  | [], _ => by simp [insertJobSorted, jobLe]
  | x :: xs, hp => by
    rcases List.pairwise_cons.mp hp with ⟨hx, hxs⟩
    simp only [insertJobSorted]
    split
    · rename_i hlt
      refine List.pairwise_cons.mpr ⟨?_, hp⟩
      intro y hy
      rcases List.mem_cons.mp hy with hy | hy
      · subst hy
        exact goStringLt_asymm hlt
      · show goStringLt y.service j.service = false
        cases hxy : goStringLt y.service j.service with
        | false => rfl
        | true =>
          have : goStringLt y.service x.service = true := goStringLt_trans hxy hlt
          rw [hx y hy] at this
          exact absurd this (by simp)
    · rename_i hnlt
      refine List.pairwise_cons.mpr ⟨?_, pairwise_insertJobSorted j xs hxs⟩
      intro y hy
      rcases mem_insertJobSorted j xs y hy with hy | hy
      · subst hy
        show goStringLt y.service x.service = false
        simpa using hnlt
      · exact hx y hy

lemma pairwise_sortJobs (l : List InteractiveInterfaceJob) :
    (sortJobs l).Pairwise jobLe := by
  induction l with
  | nil => simp [sortJobs]
  | cons x xs ih => exact pairwise_insertJobSorted x _ ih

lemma length_insertJobSorted (j : InteractiveInterfaceJob) :
    ∀ (l : List InteractiveInterfaceJob),
      (insertJobSorted j l).length = l.length + 1
  | [] => rfl
  | x :: xs => by
    simp only [insertJobSorted]
    split
    · simp
    · simp [length_insertJobSorted j xs]

lemma length_sortJobs (l : List InteractiveInterfaceJob) :
    (sortJobs l).length = l.length := by
  induction l with
  | nil => rfl
  | cons x xs ih =>
    show (insertJobSorted x (sortJobs xs)).length = xs.length + 1
    rw [length_insertJobSorted, ih]

/-! ### Classification, map and ring-buffer facts -/

lemma classifyJobs_eq_filter (jobs : List InteractiveInterfaceJob) :
    classifyJobs jobs =
      (jobs.filter (fun j => j.status == "succeeded"),
       jobs.filter (fun j => j.status == "failed"),
       jobs.filter (fun j => !(j.status == "succeeded") && !(j.status == "failed"))) := by
  induction jobs with
  | nil => rfl
  | cons job rest ih =>
    simp only [classifyJobs, ih]
    by_cases hs : job.status = "succeeded"
    · simp [List.filter_cons, hs]
    · by_cases hf : job.status = "failed"
      · simp [List.filter_cons, hs, hf]
      · simp [List.filter_cons, hs, hf]

lemma lookupJob_updateJob (jobs : List (String × InteractiveInterfaceJob)) (k key : String)
    (f : InteractiveInterfaceJob → InteractiveInterfaceJob) :
    lookupJob (updateJob jobs k f) key =
      if key = k then (lookupJob jobs key).map f else lookupJob jobs key := by
  induction jobs with
  | nil => simp only [updateJob, List.map_nil, lookupJob]; split <;> rfl
  | cons p rest ih =>
    by_cases hpk : p.1 = key
    · by_cases hk : p.1 = k
      · have hkey : key = k := hpk ▸ hk
        simp [updateJob, lookupJob, hk, hpk, hkey]
      · have hkey : ¬ key = k := fun h => hk (hpk.trans h)
        simp [updateJob, lookupJob, hk, hpk, hkey]
    · by_cases hk : p.1 = k
      · simp only [updateJob, List.map_cons, if_pos hk, lookupJob, if_neg hpk]
        exact ih
      · simp only [updateJob, List.map_cons, if_neg hk, lookupJob, if_neg hpk]
        exact ih

lemma length_Peek_le (b : StringRingBuffer) (k : Nat) : (b.Peek k).length ≤ k := by
  simp only [StringRingBuffer.Peek, List.length_drop]
  omega

/-! ### Facts about the fused render loop -/

lemma renderLoop_nil (height linesPerJob curr : Nat) (rem : Int) :
    renderLoop height linesPerJob curr rem [] = ([], [], curr, rem) := rfl

lemma renderLoop_cons_break (height linesPerJob curr : Nat) (rem : Int)
    (job : InteractiveInterfaceJob) (rest : List InteractiveInterfaceJob)
    (hbrk : curr + 1 ≥ height - 2) :
    renderLoop height linesPerJob curr rem (job :: rest) = ([], [], curr, rem) := by
  rw [renderLoop, if_pos hbrk]

lemma renderLoop_cons_pos (height linesPerJob curr : Nat) (rem : Int)
    (job : InteractiveInterfaceJob) (rest : List InteractiveInterfaceJob)
    (hbrk : ¬ (curr + 1 ≥ height - 2)) (hrem : rem > 0) :
    renderLoop height linesPerJob curr rem (job :: rest) =
      ((curr, jobHeader job) ::
          (job.lastLogLines.Peek (linesPerJob - 1 + 1)).enum.map
            (fun p => (curr + 1 + p.1, p.2)) ++
          (renderLoop height linesPerJob
            (curr + 1 + (job.lastLogLines.Peek (linesPerJob - 1 + 1)).length)
            (rem - 1) rest).1,
        (linesPerJob - 1 + 1) ::
          (renderLoop height linesPerJob
            (curr + 1 + (job.lastLogLines.Peek (linesPerJob - 1 + 1)).length)
            (rem - 1) rest).2.1,
        (renderLoop height linesPerJob
          (curr + 1 + (job.lastLogLines.Peek (linesPerJob - 1 + 1)).length)
          (rem - 1) rest).2.2.1,
        (renderLoop height linesPerJob
          (curr + 1 + (job.lastLogLines.Peek (linesPerJob - 1 + 1)).length)
          (rem - 1) rest).2.2.2) := by
  rw [renderLoop, if_neg hbrk]
  simp only [if_pos hrem, Nat.cast_one]

lemma renderLoop_cons_nonpos (height linesPerJob curr : Nat) (rem : Int)
    (job : InteractiveInterfaceJob) (rest : List InteractiveInterfaceJob)
    (hbrk : ¬ (curr + 1 ≥ height - 2)) (hrem : ¬ (rem > 0)) :
    renderLoop height linesPerJob curr rem (job :: rest) =
      ((curr, jobHeader job) ::
          (job.lastLogLines.Peek (linesPerJob - 1)).enum.map
            (fun p => (curr + 1 + p.1, p.2)) ++
          (renderLoop height linesPerJob
            (curr + 1 + (job.lastLogLines.Peek (linesPerJob - 1)).length) rem rest).1,
        (linesPerJob - 1) ::
          (renderLoop height linesPerJob
            (curr + 1 + (job.lastLogLines.Peek (linesPerJob - 1)).length) rem rest).2.1,
        (renderLoop height linesPerJob
          (curr + 1 + (job.lastLogLines.Peek (linesPerJob - 1)).length) rem rest).2.2.1,
        (renderLoop height linesPerJob
          (curr + 1 + (job.lastLogLines.Peek (linesPerJob - 1)).length) rem rest).2.2.2) := by
  rw [renderLoop, if_neg hbrk]
  simp only [if_neg hrem, Nat.cast_zero, sub_zero, Nat.add_zero]

lemma renderLoop_allots_get? (height linesPerJob : Nat) :
    ∀ (l : List InteractiveInterfaceJob) (curr : Nat) (rem : Int) (i : Nat),
      i < ((renderLoop height linesPerJob curr rem l).2.1).length →
      ((renderLoop height linesPerJob curr rem l).2.1).get? i =
        some (linesPerJob - 1 + (if (i : Int) < rem then 1 else 0))
  | [], curr, rem, i, hi => by simp [renderLoop_nil] at hi
  | job :: rest, curr, rem, i, hi => by
    by_cases hbrk : curr + 1 ≥ height - 2
    · exfalso
      rw [renderLoop_cons_break height linesPerJob curr rem job rest hbrk] at hi
      simp at hi
    · by_cases hrem : rem > 0
      · rw [renderLoop_cons_pos height linesPerJob curr rem job rest hbrk hrem] at hi ⊢
        match i with
        | 0 =>
          rw [List.get?_cons_zero]
          rw [if_pos (by push_cast; omega)]
        | Nat.succ i =>
          simp only [List.length_cons] at hi
          rw [List.get?_cons_succ]
          rw [renderLoop_allots_get? height linesPerJob rest _ _ i (by omega)]
          by_cases hilt : (i : Int) < rem - 1
          · rw [if_pos hilt, if_pos (by push_cast; omega)]
          · rw [if_neg hilt, if_neg (by push_cast; omega)]
      · rw [renderLoop_cons_nonpos height linesPerJob curr rem job rest hbrk hrem] at hi ⊢
        match i with
        | 0 =>
          rw [List.get?_cons_zero]
          rw [if_neg (by push_cast; omega), Nat.add_zero]
        | Nat.succ i =>
          simp only [List.length_cons] at hi
          rw [List.get?_cons_succ]
          rw [renderLoop_allots_get? height linesPerJob rest _ _ i (by omega)]
          rw [if_neg (by omega), if_neg (by push_cast; omega)]

lemma renderLoop_serves_remainder (height linesPerJob : Nat) (hL : 2 ≤ linesPerJob) :
    ∀ (l : List InteractiveInterfaceJob) (curr : Nat) (rem : Int),
      0 < rem → rem ≤ (l.length : Int) →
      (curr : Int) + (rem - 1) * ((linesPerJob : Int) + 1) + 1 < (height : Int) - 2 →
      rem ≤ (((renderLoop height linesPerJob curr rem l).2.1).length : Int)
  | [], curr, rem, hrem, hlen, _ => by simp at hlen; omega
  | job :: rest, curr, rem, hrem, hlen, hinv => by
    have hprod : 0 ≤ (rem - 1) * ((linesPerJob : Int) + 1) :=
      mul_nonneg (by omega) (by omega)
    have hbrk : ¬ (curr + 1 ≥ height - 2) := by omega
    rw [renderLoop_cons_pos height linesPerJob curr rem job rest hbrk hrem]
    simp only [List.length_cons]
    by_cases hone : rem = 1
    · subst hone
      push_cast
      omega
    · have hlog :
        (job.lastLogLines.Peek (linesPerJob - 1 + 1)).length ≤ linesPerJob - 1 + 1 :=
        length_Peek_le _ _
      have hmul : (rem - 1 - 1) * ((linesPerJob : Int) + 1) + ((linesPerJob : Int) + 1) =
          (rem - 1) * ((linesPerJob : Int) + 1) := by ring
      have ih := renderLoop_serves_remainder height linesPerJob hL rest
        (curr + 1 + (job.lastLogLines.Peek (linesPerJob - 1 + 1)).length) (rem - 1)
        (by omega)
        (by simp at hlen; omega)
        (by push_cast; omega)
      push_cast at ih ⊢
      omega

/-! ### Observer preservation through the facade operations -/

lemma lookupJob_map_updateJob {α : Type} (jobs : List (String × InteractiveInterfaceJob))
    (k key : String) (f : InteractiveInterfaceJob → InteractiveInterfaceJob)
    (g : InteractiveInterfaceJob → α) (hf : ∀ j, g (f j) = g j) :
    (lookupJob (updateJob jobs k f) key).map g = (lookupJob jobs key).map g := by
  rw [lookupJob_updateJob]
  by_cases h : key = k
  · rw [if_pos h]
    cases lookupJob jobs key with
    | none => rfl
    | some j => simp [hf]
  · rw [if_neg h]

lemma statusAt_setJobStatus_present (s : InteractiveInterface) (key newStatus : String)
    (job : InteractiveInterfaceJob) (h : lookupJob s.jobs key = some job) :
    statusAt (setJobStatus s key newStatus) key = some newStatus := by
  unfold setJobStatus
  rw [h]
  unfold statusAt
  simp [lookupJob_updateJob, h]

lemma statusAt_ProcessLog_ok (s s2 : InteractiveInterface) (other line key : String)
    (hok : ProcessLog s other line = Except.ok s2) :
    statusAt s2 key = statusAt s key := by
  unfold ProcessLog at hok
  cases hm : lookupJob s.jobs other with
  | none => rw [hm] at hok; exact absurd hok (by simp)
  | some j =>
    rw [hm] at hok
    by_cases ht : trimSpace line = ""
    · rw [if_pos ht] at hok
      cases hok
      rfl
    · rw [if_neg ht] at hok
      cases hok
      unfold statusAt
      exact lookupJob_map_updateJob s.jobs other key
        (fun job => { job with lastLogLines := job.lastLogLines.Push (trimSpace line) })
        (fun job => job.status) (fun j => rfl)

lemma pushingAt_ProcessLog_ok (s s2 : InteractiveInterface) (other line key : String)
    (hok : ProcessLog s other line = Except.ok s2) :
    pushingAt s2 key = pushingAt s key := by
  unfold ProcessLog at hok
  cases hm : lookupJob s.jobs other with
  | none => rw [hm] at hok; exact absurd hok (by simp)
  | some j =>
    rw [hm] at hok
    by_cases ht : trimSpace line = ""
    · rw [if_pos ht] at hok
      cases hok
      rfl
    · rw [if_neg ht] at hok
      cases hok
      unfold pushingAt
      exact lookupJob_map_updateJob s.jobs other key
        (fun job => { job with lastLogLines := job.lastLogLines.Push (trimSpace line) })
        (fun job => job.pushing) (fun j => rfl)

lemma pushingAt_setJobStatus (s : InteractiveInterface) (other newStatus key : String) :
    pushingAt (setJobStatus s other newStatus) key = pushingAt s key := by
  unfold setJobStatus
  cases hm : lookupJob s.jobs other with
  | none => rfl
  | some j =>
    unfold pushingAt
    exact lookupJob_map_updateJob s.jobs other key
      (fun job => { job with status := newStatus })
      (fun job => job.pushing) (fun j => rfl)

lemma ProcessLog_ok_of_present (s : InteractiveInterface) (key line : String)
    (job : InteractiveInterfaceJob) (h : lookupJob s.jobs key = some job) :
    ∃ s2, ProcessLog s key line = Except.ok s2 := by
  unfold ProcessLog
  rw [h]
  by_cases ht : trimSpace line = ""
  · exact ⟨s, by rw [if_pos ht]⟩
  · exact ⟨_, by rw [if_neg ht]⟩

lemma lookupJob_ProcessLog_ok (s s2 : InteractiveInterface) (other line key : String)
    (hok : ProcessLog s other line = Except.ok s2) :
    (lookupJob s2.jobs key).isSome = (lookupJob s.jobs key).isSome := by
  have h := statusAt_ProcessLog_ok s s2 other line key hok
  unfold statusAt at h
  cases h1 : lookupJob s2.jobs key <;> cases h2 : lookupJob s.jobs key <;>
    rw [h1, h2] at h <;> simp_all

/-! ### C1 -/

/-- C1 counterexample: the claim "markFailed on a never-started key is a
silent no-op and never fails fatally" is false at the concrete input
(empty registry, key "api"): `FailJob` panics with "Could not find service". -/
theorem failJob_unknown_key_cx :
    lookupJob emptyInterface.jobs "api" = none ∧
    FailJob emptyInterface "api" "boom" = Except.error "Could not find service: api" :=
  ⟨rfl, rfl⟩

/-- C1 (amended): for every key that was never started, markFailed(key, err)
fails fatally: it panics out of its internal appendLog of the "Error!" line
(the guarded status update is never reached). -/
theorem failJob_unknown_key_panics (iface : InteractiveInterface) (service err : String)
    (h : lookupJob iface.jobs service = none) :
    FailJob iface service err = Except.error ("Could not find service: " ++ service) := by
  unfold FailJob ProcessLog
  rw [h]

/-- C1 witness: the amended theorem applied at the empty registry. -/
theorem failJob_unknown_key_panics_witness :
    FailJob emptyInterface "api" "boom" =
      Except.error ("Could not find service: " ++ "api") :=
  failJob_unknown_key_panics emptyInterface "api" "boom" rfl

/-! ### C2 -/

/-- C2 counterexample: the same registry (the two job lists are permutations
of each other, i.e. the same Go map observed in two different iteration
orders), both runs not cancelled, yet close() prints two different failure
lines — the key order is not deterministic across runs. -/
theorem close_summary_order_cx :
    closeOrderStateA.jobs.Perm closeOrderStateB.jobs ∧
    closeOrderStateA.cancelled = false ∧
    closeOrderStateB.cancelled = false ∧
    (Close closeOrderStateA).2 ≠ (Close closeOrderStateB).2 := by
  refine ⟨List.Perm.swap _ _ _, rfl, rfl, ?_⟩
  decide

/-- C2 (amended): on the same registry state with cancelled = false, every run
of close() prints exactly one summary line, both runs agree on whether it is
the failure or the success variant, and the keys (resp. labels) listed are the
same up to order — but the order itself follows the map iteration order and
may differ between runs. -/
theorem close_summary_perm (s1 s2 : InteractiveInterface)
    (hperm : s1.jobs.Perm s2.jobs) (hc1 : s1.cancelled = false)
    (hc2 : s2.cancelled = false) :
    ((Close s1).2.isSome ∧ (Close s2).2.isSome) ∧
    (failedJobNames s1.jobs).Perm (failedJobNames s2.jobs) ∧
    (serviceImages s1.jobs).Perm (serviceImages s2.jobs) ∧
    ((failedJobNames s1.jobs).length > 0 ↔ (failedJobNames s2.jobs).length > 0) := by
  have hf : (failedJobNames s1.jobs).Perm (failedJobNames s2.jobs) :=
    (hperm.filter _).map _
  have him : (serviceImages s1.jobs).Perm (serviceImages s2.jobs) := hperm.map _
  refine ⟨⟨?_, ?_⟩, hf, him, ?_⟩
  · simp only [Close, hc1, Bool.not_false, if_true]
    by_cases hl : (failedJobNames s1.jobs).length > 0 <;> simp [hl]
  · simp only [Close, hc2, Bool.not_false, if_true]
    by_cases hl : (failedJobNames s2.jobs).length > 0 <;> simp [hl]
  · rw [hf.length_eq]

/-- C2 witness: the amended theorem applied to the two iteration orders of the
two-failed-jobs registry. -/
theorem close_summary_perm_witness :
    (((Close closeOrderStateA).2.isSome ∧ (Close closeOrderStateB).2.isSome) ∧
      (failedJobNames closeOrderStateA.jobs).Perm (failedJobNames closeOrderStateB.jobs) ∧
      (serviceImages closeOrderStateA.jobs).Perm (serviceImages closeOrderStateB.jobs) ∧
      ((failedJobNames closeOrderStateA.jobs).length > 0 ↔
        (failedJobNames closeOrderStateB.jobs).length > 0)) :=
  close_summary_perm closeOrderStateA closeOrderStateB (List.Perm.swap _ _ _) rfl rfl

/-! ### C3 -/

/-- C3 counterexample: the claim "once pushing is set, no subsequent operation
(including startJob) ever clears it" is false at a concrete input: after
markPushing, a second startJob for the same key replaces the entry and the
pushing flag reads false again. -/
theorem pushing_cleared_by_startJob_cx :
    pushingAt pushState0 "api" = some true ∧
    pushingAt (StartJob pushState0 "api" "img:v2") "api" = some false :=
  ⟨rfl, rfl⟩

/-- C3 (amended): once markPushing has set a key's pushing flag, no operation
other than re-registering that key through startJob clears it: markSucceeded,
markPushing, appendLog and markFailed (on any key, with any arguments) all
leave the flag true.  (startJob on the same key replaces the whole entry with
a fresh job whose pushing flag is false.) -/
theorem pushing_preserved_by_ops (s : InteractiveInterface) (key other line err : String)
    (h : pushingAt s key = some true) :
    pushingAt (SucceedJob s other) key = some true ∧
    pushingAt (SetPushing s other) key = some true ∧
    (∀ s2, ProcessLog s other line = Except.ok s2 → pushingAt s2 key = some true) ∧
    (∀ s2, FailJob s other err = Except.ok s2 → pushingAt s2 key = some true) := by
  refine ⟨?_, ?_, ?_, ?_⟩
  · rw [SucceedJob, pushingAt_setJobStatus]
    exact h
  · unfold SetPushing
    cases hm : lookupJob s.jobs other with
    | none => exact h
    | some j =>
      unfold pushingAt at h ⊢
      rw [lookupJob_updateJob]
      by_cases hk : key = other
      · rw [if_pos hk]
        cases hl : lookupJob s.jobs key with
        | none => rw [hl] at h; exact absurd h (by simp)
        | some jj => simp
      · rw [if_neg hk]
        exact h
  · intro s2 hok
    rw [pushingAt_ProcessLog_ok s s2 other line key hok]
    exact h
  · intro s2 hok
    unfold FailJob at hok
    cases hp : ProcessLog s other ("Error! " ++ err) with
    | error e => rw [hp] at hok; exact absurd hok (by simp)
    | ok smid =>
      rw [hp] at hok
      cases hok
      rw [pushingAt_setJobStatus, pushingAt_ProcessLog_ok s smid other _ key hp]
      exact h

/-- C3 witness: the amended theorem applied to the one-job pushing state. -/
theorem pushing_preserved_by_ops_witness :
    pushingAt (SucceedJob pushState0 "api") "api" = some true ∧
    pushingAt (SetPushing pushState0 "api") "api" = some true ∧
    (∀ s2, ProcessLog pushState0 "api" " line " = Except.ok s2 →
      pushingAt s2 "api" = some true) ∧
    (∀ s2, FailJob pushState0 "api" "boom" = Except.ok s2 →
      pushingAt s2 "api" = some true) :=
  pushing_preserved_by_ops pushState0 "api" "api" " line " "boom" rfl

/-! ### C4 -/

/-- C4: with cancelled = false, close() prints exactly one summary: the
failure line listing exactly the keys of the non-Succeeded jobs (a job still
Building counts as failed) when at least one exists, otherwise the success
line with the labels; with cancelled = true it prints nothing. -/
theorem close_summary_correct (s : InteractiveInterface) :
    ((Close s).2 = (if s.cancelled then none
      else if (failedJobNames s.jobs).length > 0 then
        some ("Failed to build the following jobs: " ++
          joinStrings ", " (failedJobNames s.jobs) ++ "\nSee the logs folder for details.\n")
      else
        some ("Successfully built: " ++ joinStrings " " (serviceImages s.jobs) ++ "\n"))) ∧
    (∀ key, key ∈ failedJobNames s.jobs ↔
      ∃ job, (key, job) ∈ s.jobs ∧ job.status ≠ "succeeded") ∧
    ((Close s).2 = none ↔ s.cancelled = true) := by
  refine ⟨?_, ?_, ?_⟩
  · cases hc : s.cancelled with
    | true => simp [Close, hc]
    | false =>
      simp only [Close, hc, Bool.not_false, if_true, if_false]
      rfl
  · intro key
    unfold failedJobNames
    simp only [List.mem_map, List.mem_filter]
    constructor
    · rintro ⟨p, ⟨hp, hst⟩, hkey⟩
      refine ⟨p.2, ?_, ?_⟩
      · have hpe : (key, p.2) = p := by rw [← hkey]
        rw [hpe]
        exact hp
      · simpa using hst
    · rintro ⟨job, hmem, hst⟩
      exact ⟨(key, job), ⟨hmem, by simpa using hst⟩, rfl⟩
  · cases hc : s.cancelled with
    | true => simp [Close, hc]
    | false =>
      simp only [Close, hc, Bool.not_false, if_true]
      by_cases hl : (failedJobNames s.jobs).length > 0 <;> simp [hl]

/-! ### C5 -/

/-- C5: when the drawing body of a render pass fails, redrawScreen first
performs terminal teardown (Close: screen finalized, redraw loop stopped) and
then re-signals the original failure unchanged — the failure is never
swallowed and the terminal is never left unfinalized. -/
theorem render_failure_teardown (iface : InteractiveInterface) (e : String) :
    (redrawScreen iface (Except.error e)).2 = Except.error e ∧
    (redrawScreen iface (Except.error e)).1.screenFinalized = true ∧
    (redrawScreen iface (Except.error e)).1.running = false :=
  ⟨rfl, rfl, rfl⟩

/-! ### C6 -/

/-- C6: appendLog trims surrounding whitespace; an empty trimmed line leaves
the state (and so the job's ring buffer) unchanged; a non-empty trimmed line
is pushed onto the job's buffer; and the call fails fatally if and only if the
key was never started. -/
theorem processLog_spec (s : InteractiveInterface) (key line : String) :
    (lookupJob s.jobs key = none →
      ProcessLog s key line = Except.error ("Could not find service: " ++ key)) ∧
    (∀ job, lookupJob s.jobs key = some job →
      (trimSpace line = "" → ProcessLog s key line = Except.ok s) ∧
      (trimSpace line ≠ "" → ProcessLog s key line = Except.ok { s with
        jobs := updateJob s.jobs key
          (fun j => { j with lastLogLines := j.lastLogLines.Push (trimSpace line) }) })) ∧
    ((∃ e, ProcessLog s key line = Except.error e) ↔ lookupJob s.jobs key = none) := by
  refine ⟨?_, ?_, ?_, ?_⟩
  · intro h
    unfold ProcessLog
    rw [h]
  · intro job h
    constructor
    · intro ht
      unfold ProcessLog
      rw [h]
      simp [ht]
    · intro ht
      unfold ProcessLog
      rw [h]
      simp [ht]
  · rintro ⟨e, he⟩
    cases hm : lookupJob s.jobs key with
    | none => rfl
    | some j =>
      unfold ProcessLog at he
      rw [hm] at he
      by_cases ht : trimSpace line = "" <;> simp [ht] at he
  · intro h
    exact ⟨_, by unfold ProcessLog; rw [h]⟩

/-- C6 witness: the theorem applied at a one-job registry (blank line ignored,
non-blank line trimmed and pushed) and at the empty registry (fatal). -/
theorem processLog_spec_witness :
    ProcessLog logState0 "api" "   " = Except.ok logState0 ∧
    ProcessLog logState0 "api" " hi " = Except.ok { logState0 with
      jobs := updateJob logState0.jobs "api"
        (fun j => { j with lastLogLines := j.lastLogLines.Push (trimSpace " hi ") }) } ∧
    ProcessLog emptyInterface "api" "x" =
      Except.error ("Could not find service: " ++ "api") := by
  refine ⟨?_, ?_, ?_⟩
  · exact ((processLog_spec logState0 "api" "   ").2.1 logJob0 rfl).1 (by decide)
  · exact ((processLog_spec logState0 "api" " hi ").2.1 logJob0 rfl).2 (by decide)
  · exact (processLog_spec emptyInterface "api" "x").1 rfl

/-! ### C7 -/

lemma remainder_pos_facts (height n : Nat) (hn : 0 < n)
    (hpos : 0 < numRemainderOf height (linesPerJobOf height n) n) :
    2 ≤ linesPerJobOf height n ∧
    numRemainderOf height (linesPerJobOf height n) n ≤ (n : Int) - 1 ∧
    (numRemainderOf height (linesPerJobOf height n) n - 1) *
      ((linesPerJobOf height n : Int) + 1) + 1 < (height : Int) - 2 := by
  have hifeq : linesPerJobOf height n =
      (if (height - 1) / n < 2 then 2 else (height - 1) / n) := rfl
  by_cases hb : (height - 1) / n < 2
  · exfalso
    have hL2 : linesPerJobOf height n = 2 := by rw [hifeq, if_pos hb]
    have hlt : height - 1 < 2 * n := (Nat.div_lt_iff_lt_mul (by omega)).mp hb
    unfold numRemainderOf at hpos
    rw [hL2] at hpos
    push_cast at hpos
    omega
  · have hLval : linesPerJobOf height n = (height - 1) / n := by rw [hifeq, if_neg hb]
    have hb2 : 2 ≤ (height - 1) / n := by omega
    have hdm : n * ((height - 1) / n) + (height - 1) % n = height - 1 :=
      Nat.div_add_mod (height - 1) n
    have hmlt : (height - 1) % n < n := Nat.mod_lt _ (by omega)
    have hLnn : (0:Int) ≤ (linesPerJobOf height n : Int) * (n : Int) :=
      mul_nonneg (Int.natCast_nonneg _) (Int.natCast_nonneg _)
    have hheight : 1 ≤ height := by
      by_contra hh
      have h0 : height = 0 := by omega
      subst h0
      unfold numRemainderOf at hpos
      push_cast at hpos
      omega
    have hdmZ : (n : Int) * (((height - 1) / n : Nat) : Int) +
        (((height - 1) % n : Nat) : Int) = ((height - 1 : Nat) : Int) := by
      exact_mod_cast hdm
    have hh1 : ((height - 1 : Nat) : Int) = (height : Int) - 1 := by omega
    have hcomm : (((height - 1) / n : Nat) : Int) * (n : Int) =
        (n : Int) * (((height - 1) / n : Nat) : Int) := mul_comm _ _
    have hremeq : numRemainderOf height (linesPerJobOf height n) n =
        (((height - 1) % n : Nat) : Int) := by
      unfold numRemainderOf
      rw [hLval]
      omega
    refine ⟨by omega, by rw [hremeq]; omega, ?_⟩
    have hmono : (((height - 1) % n : Nat) : Int) * (((height - 1) / n : Nat) : Int) ≤
        ((n : Int) - 1) * (((height - 1) / n : Nat) : Int) :=
      mul_le_mul_of_nonneg_right (by omega) (Int.natCast_nonneg _)
    have hexp : ((((height - 1) % n : Nat) : Int) - 1) *
        ((((height - 1) / n : Nat) : Int) + 1) =
        (((height - 1) % n : Nat) : Int) * (((height - 1) / n : Nat) : Int) +
          (((height - 1) % n : Nat) : Int) - (((height - 1) / n : Nat) : Int) - 1 := by
      ring
    have hexp2 : ((n : Int) - 1) * (((height - 1) / n : Nat) : Int) =
        (n : Int) * (((height - 1) / n : Nat) : Int) -
          (((height - 1) / n : Nat) : Int) := by
      ring
    rw [hremeq, hLval]
    omega

/-- C7: for every terminal height and every non-empty render order, the layout
computes `linesPerJob = floor((height-1)/n)` floored at 2 and
`remainder = (height-1) - linesPerJob*n`; the render order is the failed bucket
followed by the building bucket, each sorted by job key; and the remainder is
handed out as exactly one extra log line to each of the first `remainder` jobs
of the render order (every such job is reached: the row budget never breaks
off the loop while remainder lines are left). -/
theorem layout_allocation (jobs : List InteractiveInterfaceJob) (height : Nat)
    (hn : 0 < (renderOrder jobs).length) :
    ∀ n linesPerJob rem,
      n = (renderOrder jobs).length →
      linesPerJob = linesPerJobOf height n →
      rem = numRemainderOf height linesPerJob n →
      (linesPerJob = max 2 ((height - 1) / n) ∧
        rem = (height : Int) - 1 - (linesPerJob : Int) * (n : Int)) ∧
      (renderOrder jobs =
          sortJobs (classifyJobs jobs).2.1 ++ sortJobs (classifyJobs jobs).2.2 ∧
        (sortJobs (classifyJobs jobs).2.1).Pairwise jobLe ∧
        (sortJobs (classifyJobs jobs).2.2).Pairwise jobLe) ∧
      (∀ i, i < ((renderLoop height linesPerJob 0 rem (renderOrder jobs)).2.1).length →
        ((renderLoop height linesPerJob 0 rem (renderOrder jobs)).2.1).get? i =
          some (linesPerJob - 1 + (if (i : Int) < rem then 1 else 0))) ∧
      (0 < rem →
        rem ≤ (((renderLoop height linesPerJob 0 rem (renderOrder jobs)).2.1).length : Int)) := by
  intro n linesPerJob rem hn2 hL hrem
  subst hn2
  subst hL
  subst hrem
  refine ⟨⟨?_, rfl⟩, ⟨rfl, pairwise_sortJobs _, pairwise_sortJobs _⟩, ?_, ?_⟩
  · show (if (height - 1) / (renderOrder jobs).length < 2 then 2
      else (height - 1) / (renderOrder jobs).length) =
        max 2 ((height - 1) / (renderOrder jobs).length)
    split <;> omega
  · intro i hi
    exact renderLoop_allots_get? height _ _ 0 _ i hi
  · intro hpos
    obtain ⟨hL2, hle, hinv⟩ := remainder_pos_facts height (renderOrder jobs).length hn hpos
    exact renderLoop_serves_remainder height _ hL2 (renderOrder jobs) 0 _ hpos
      (by omega) (by push_cast; omega)

/-- C7 witness: the theorem applied at height 10 with one failed job (five log
lines) and one building job: `linesPerJob = 4`, `remainder = 1`, the first job
in render order is allotted 4 log lines and the second 3. -/
theorem layout_allocation_witness :
    ((renderLoop 10 4 0 1 (renderOrder wJobs)).2.1).get? 0 = some 4 ∧
    ((renderLoop 10 4 0 1 (renderOrder wJobs)).2.1).get? 1 = some 3 ∧
    (1 : Int) ≤ (((renderLoop 10 4 0 1 (renderOrder wJobs)).2.1).length : Int) := by
  have h := layout_allocation wJobs 10 (by decide) 2 4 1 (by decide) (by decide) (by decide)
  refine ⟨?_, ?_, h.2.2.2 (by decide)⟩
  · rw [h.2.2.1 0 (by decide)]
    decide
  · rw [h.2.2.1 1 (by decide)]
    decide

/-! ### C8 -/

/-- C8: whenever anything is rendered (some job is failed or building), the
bottom row of the frame is exactly the string
"F/T failed, S/T completed, A/T building", written at row height-1, where F, S
and A count the failed, succeeded and building jobs and T = F + A + S. -/
theorem summary_row (iface : InteractiveInterface) (height : Nat)
    (hn : ((iface.jobs.map (fun p => p.2)).filter (fun j => j.status == "failed")).length +
      ((iface.jobs.map (fun p => p.2)).filter
        (fun j => !(j.status == "succeeded") && !(j.status == "failed"))).length ≠ 0) :
    (redrawScreenRows iface height).getLast? = some (height - 1,
      summaryLine
        ((iface.jobs.map (fun p => p.2)).filter (fun j => j.status == "failed")).length
        ((iface.jobs.map (fun p => p.2)).filter (fun j => j.status == "succeeded")).length
        ((iface.jobs.map (fun p => p.2)).filter
          (fun j => !(j.status == "succeeded") && !(j.status == "failed"))).length
        (((iface.jobs.map (fun p => p.2)).filter (fun j => j.status == "failed")).length +
          ((iface.jobs.map (fun p => p.2)).filter
            (fun j => !(j.status == "succeeded") && !(j.status == "failed"))).length +
          ((iface.jobs.map (fun p => p.2)).filter (fun j => j.status == "succeeded")).length)) := by
  simp only [redrawScreenRows, classifyJobs_eq_filter]
  rw [if_neg hn, List.getLast?_concat]
  have hT : ((iface.jobs.map (fun p => p.2)).filter
        (fun j => !(j.status == "succeeded") && !(j.status == "failed"))).length +
      ((iface.jobs.map (fun p => p.2)).filter (fun j => j.status == "failed")).length +
      ((iface.jobs.map (fun p => p.2)).filter (fun j => j.status == "succeeded")).length =
      ((iface.jobs.map (fun p => p.2)).filter (fun j => j.status == "failed")).length +
      ((iface.jobs.map (fun p => p.2)).filter
        (fun j => !(j.status == "succeeded") && !(j.status == "failed"))).length +
      ((iface.jobs.map (fun p => p.2)).filter (fun j => j.status == "succeeded")).length := by
    omega
  rw [hT]

/-- C8 witness: for jobs A failed, B succeeded, C building the bottom row is
exactly "1/3 failed, 1/3 completed, 1/3 building". -/
theorem summary_row_witness :
    (redrawScreenRows w8State 7).getLast? =
      some (6, "1/3 failed, 1/3 completed, 1/3 building") := by
  rw [summary_row w8State 7 (by decide)]
  decide

/-! ### C9 -/

/-- C9: when no job is failed and none is building (every registered job has
succeeded), a render pass draws nothing at all: no job rows and no bottom
summary row. -/
theorem all_succeeded_no_render (iface : InteractiveInterface) (height : Nat)
    (h : ∀ p ∈ iface.jobs, p.2.status = "succeeded") :
    redrawScreenRows iface height = [] := by
  have hf : (iface.jobs.map (fun p => p.2)).filter (fun j => j.status == "failed") = [] := by
    rw [List.filter_eq_nil_iff]
    intro j hj
    obtain ⟨p, hp, hpe⟩ := List.mem_map.mp hj
    rw [← hpe]
    simp [h p hp]
  have hc : (iface.jobs.map (fun p => p.2)).filter
      (fun j => !(j.status == "succeeded") && !(j.status == "failed")) = [] := by
    rw [List.filter_eq_nil_iff]
    intro j hj
    obtain ⟨p, hp, hpe⟩ := List.mem_map.mp hj
    rw [← hpe]
    simp [h p hp]
  simp [redrawScreenRows, classifyJobs_eq_filter, hf, hc]

/-- C9 witness: the theorem applied to a registry whose only job succeeded. -/
theorem all_succeeded_no_render_witness :
    redrawScreenRows w9State 10 = [] :=
  all_succeeded_no_render w9State 10 (by decide)

/-! ### C10 -/

lemma lookupJob_isSome_setJobStatus (s : InteractiveInterface) (other newStatus key : String) :
    (lookupJob (setJobStatus s other newStatus).jobs key).isSome =
      (lookupJob s.jobs key).isSome := by
  unfold setJobStatus
  cases hm : lookupJob s.jobs other with
  | none => rfl
  | some j =>
    show (lookupJob (updateJob s.jobs other
      (fun job => { job with status := newStatus })) key).isSome = _
    rw [lookupJob_updateJob]
    by_cases hk : key = other
    · rw [if_pos hk]
      cases lookupJob s.jobs key <;> rfl
    · rw [if_neg hk]

lemma failJob_present_spec (s : InteractiveInterface) (key err : String)
    (job : InteractiveInterfaceJob) (h : lookupJob s.jobs key = some job) :
    ∃ s2, FailJob s key err = Except.ok s2 ∧ statusAt s2 key = some "failed" := by
  obtain ⟨smid, hmid⟩ := ProcessLog_ok_of_present s key ("Error! " ++ err) job h
  have hsome : (lookupJob smid.jobs key).isSome = true := by
    rw [lookupJob_ProcessLog_ok s smid key _ key hmid, h]
    rfl
  obtain ⟨j2, hj2⟩ := Option.isSome_iff_exists.mp hsome
  refine ⟨setJobStatus smid key "failed", ?_,
    statusAt_setJobStatus_present smid key "failed" j2 hj2⟩
  unfold FailJob
  rw [hmid]

/-- C10: for every started key, markSucceeded unconditionally sets the status
to "succeeded" and markFailed unconditionally sets it to "failed", whatever the
current status is; in particular a second terminal transition (markSucceeded
after markFailed, or markFailed after markSucceeded) silently overwrites the
first one, with no guard and no error. -/
theorem status_overwrite (s : InteractiveInterface) (key err : String)
    (job : InteractiveInterfaceJob) (h : lookupJob s.jobs key = some job) :
    statusAt (SucceedJob s key) key = some "succeeded" ∧
    (∃ s2, FailJob s key err = Except.ok s2 ∧ statusAt s2 key = some "failed") ∧
    (∀ s2, FailJob s key err = Except.ok s2 →
      statusAt (SucceedJob s2 key) key = some "succeeded") ∧
    (∃ s3, FailJob (SucceedJob s key) key err = Except.ok s3 ∧
      statusAt s3 key = some "failed") := by
  refine ⟨statusAt_setJobStatus_present s key "succeeded" job h,
    failJob_present_spec s key err job h, ?_, ?_⟩
  · intro s2 hok
    unfold FailJob at hok
    cases hp : ProcessLog s key ("Error! " ++ err) with
    | error e => rw [hp] at hok; exact absurd hok (by simp)
    | ok smid =>
      rw [hp] at hok
      cases hok
      have hsome2 : (lookupJob (setJobStatus smid key "failed").jobs key).isSome = true := by
        rw [lookupJob_isSome_setJobStatus, lookupJob_ProcessLog_ok s smid key _ key hp, h]
        rfl
      obtain ⟨j3, hj3⟩ := Option.isSome_iff_exists.mp hsome2
      exact statusAt_setJobStatus_present _ key "succeeded" j3 hj3
  · have hsome1 : (lookupJob (SucceedJob s key).jobs key).isSome = true := by
      rw [SucceedJob, lookupJob_isSome_setJobStatus, h]
      rfl
    obtain ⟨j1, hj1⟩ := Option.isSome_iff_exists.mp hsome1
    exact failJob_present_spec (SucceedJob s key) key err j1 hj1

/-- C10 witness: the theorem applied to a registry whose job already
succeeded: markFailed still flips it to "failed" and markSucceeded flips it
back, with every call succeeding. -/
theorem status_overwrite_witness :
    statusAt (SucceedJob c10State "xxx") "xxx" = some "succeeded" ∧
    (∃ s2, FailJob c10State "xxx" "late" = Except.ok s2 ∧
      statusAt s2 "xxx" = some "failed") ∧
    (∀ s2, FailJob c10State "xxx" "late" = Except.ok s2 →
      statusAt (SucceedJob s2 "xxx") "xxx" = some "succeeded") ∧
    (∃ s3, FailJob (SucceedJob c10State "xxx") "xxx" "late" = Except.ok s3 ∧
      statusAt s3 "xxx" = some "failed") :=
  status_overwrite c10State "xxx" "late" c10Job rfl

end Sanic
